import Mathlib

/-!
# Verification of the JetBrains-projects launcher extension (`src/main.py`)

A shallow embedding of the core pipeline of `main.py`:

* `pyInt`          models Python `int(str)` (base-10, ASCII subset);
* `pyPathName`     models `pathlib.Path(p).name`;
* `pyExpandUser`   models `Path(p).expanduser()` for leading `~`;
* `pySlice`        models Python list slicing `l[:n]` (including negative `n`);
* `Xml` and the query functions model the two `ElementTree` XPath queries
  used by `Editor._parse_recent_projects`;
* `parseRecentProjects` embeds `Editor._parse_recent_projects`;
* `findBinary` embeds `Editor._find_binary`;
* `listProjects` embeds `Editor.list_projects`;
* `onEvent` embeds `KeywordQueryEventListener.on_event`.

Python exceptions that escape a function are modelled with `Except PyErr`;
an exception that the source catches is folded into the return value.
-/

/-- Exceptions that can escape the embedded functions: `ValueError` (from
`int(...)`) and `re.error` (from compiling an invalid regular expression). -/
inductive PyErr where
  | valueError
  | regexError
deriving DecidableEq, Repr

/-- Decidable equality of outcomes (used to evaluate the embedding on
concrete inputs). -/
instance {e : Type} {a : Type} [DecidableEq e] [DecidableEq a] :
    DecidableEq (Except e a) := fun x y =>
  match x, y with
  | .ok u, .ok v =>
      if h : u = v then isTrue (by rw [h]) else isFalse (fun hh => by cases hh; exact h rfl)
  | .ok _, .error _ => isFalse (fun hh => by cases hh)
  | .error _, .ok _ => isFalse (fun hh => by cases hh)
  | .error u, .error v =>
      if h : u = v then isTrue (by rw [h]) else isFalse (fun hh => by cases hh; exact h rfl)

/-! ## Python string primitives, modelled over character lists

Python compares, splits and strips strings by code points; the models below
work on `String.data` so that every operation evaluates by kernel
reduction. -/

/-- Python's lexicographic string comparison `a <= b`, by code points. -/
def lexLe : List Char → List Char → Bool
  | [], _ => true
  | _ :: _, [] => false
  | c :: as, d :: bs => if c = d then lexLe as bs else decide (c < d)

/-- The order `sorted(...)` sorts Python strings by. -/
def pyStrLe (a b : String) : Prop := lexLe a.data b.data = true

instance : DecidableRel pyStrLe := fun _ _ => instDecidableEqBool _ _

/-- The whitespace `int(str)` strips (ASCII range). -/
def isPySpace (c : Char) : Bool :=
  c = ' ' || c = '\t' || c = '\n' || c = '\r' || c.toNat = 11 || c.toNat = 12

/-- Python `str.strip()` (ASCII whitespace), as performed by `int(...)`. -/
def pyStrip (cs : List Char) : List Char :=
  ((cs.dropWhile isPySpace).reverse.dropWhile isPySpace).reverse

/-! ## Python `int(str)` -/

/-- Digit runs as accepted by Python `int`: nonempty, an underscore may only
appear between two digits (`"1_2"` is accepted, `"_1"`, `"1_"`, `"1__2"` are
not). `digitsOk` requires the next char to be a digit. -/
def digitsOk : List Char → Bool
  | [] => false
  | c :: rest => c.isDigit && digitsTail rest
where
  /-- After a digit: more digits, an underscore followed by a digit run,
  or the end of the string. -/
  digitsTail : List Char → Bool
  | [] => true
  | c :: rest => if c = '_' then digitsOk rest else c.isDigit && digitsTail rest

/-- Numeric value of a digit run, ignoring underscores. -/
def digitsVal (cs : List Char) : Nat :=
  cs.foldl (fun acc c => if c = '_' then acc else acc * 10 + (c.toNat - '0'.toNat)) 0

/-- Model of Python `int(s)` for ASCII strings: strip surrounding whitespace,
allow one optional sign, then a digit run with internal underscores; anything
else raises `ValueError`. -/
def pyInt (s : String) : Except PyErr Int :=
  match pyStrip s.data with
  | '+' :: rest => if digitsOk rest then .ok (digitsVal rest) else .error .valueError
  | '-' :: rest => if digitsOk rest then .ok (-(digitsVal rest : Int)) else .error .valueError
  | rest => if digitsOk rest then .ok (digitsVal rest) else .error .valueError

/-! ## Python `pathlib` fragments -/

/-- Splitting a path on `/` (the separator handling inside `pathlib`). -/
def splitOnSlash : List Char → List (List Char)
  | [] => [[]]
  | c :: rest =>
      match splitOnSlash rest with
      | [] => [[]]
      | cur :: parts => if c = '/' then [] :: cur :: parts else (c :: cur) :: parts

/-- Model of `pathlib.Path(p).name` (see the doc comment above
`splitOnSlash`): the last path component after dropping empty and `"."`
segments, or `""` when none remains. -/
def pyPathName (p : String) : String :=
  String.mk ((((splitOnSlash p.data).filter
    (fun s => s ≠ [] && s ≠ ['.'])).getLast?).getD [])

/-- Model of `Path(p).expanduser()` for the `~` and `~/...` forms: a leading
`~` component is replaced by the home directory; other paths are unchanged. -/
def pyExpandUser (p : String) (home : String) : String :=
  if p = "~" then home
  else if ['~', '/'].isPrefixOf p.data then String.mk (home.data ++ p.data.drop 1)
  else p

/-- Model of Python list slicing `l[:n]` for an `int` bound `n`: a nonnegative
bound keeps the first `n` elements, a negative bound drops the last `-n`
(clamped at the empty list). -/
def pySlice (l : List α) (n : Int) : List α :=
  if 0 ≤ n then l.take n.toNat else l.take (l.length + n).toNat

/-! ## The XML model and the two XPath queries of `_parse_recent_projects` -/

/-- An XML element: tag, attributes in document order, children in document
order. Text nodes are irrelevant to the queries used and are omitted. -/
inductive Xml where
  | elem (tag : String) (attrs : List (String × String)) (children : List Xml)

/-- The tag of an element. -/
def Xml.tag : Xml → String
  | .elem t _ _ => t

/-- The attribute list of an element. -/
def Xml.attrs : Xml → List (String × String)
  | .elem _ a _ => a

/-- The children of an element. -/
def Xml.children : Xml → List Xml
  | .elem _ _ c => c

/-- Model of `x.attrib[k]` lookup / `k in x.attrib`: the first
binding of `k`, if any. -/
def Xml.attr (x : Xml) (k : String) : Option String :=
  (x.attrs.find? (fun p => p.1 = k)).map Prod.snd

mutual
/-- An element together with all its descendants, in document order. -/
def Xml.selfDesc : Xml → List Xml
  | .elem t a ch => .elem t a ch :: descendantsOfList ch

/-- All elements of a list together with their descendants, in document
order: used to model the `.//` descendant axis. -/
def descendantsOfList : List Xml → List Xml
  | [] => []
  | x :: xs => x.selfDesc ++ descendantsOfList xs
end

/-- Strict descendants of one element, in document order (the element itself
excluded), as traversed by `ElementTree`'s `.//` axis. -/
def Xml.descendants (x : Xml) : List Xml :=
  descendantsOfList x.children

/-- Model of `root.findall(".//component[@name='RecentProjectsManager']//entry[@key]")`:
for every descendant `component` element whose `name` attribute is the
sentinel, in document order, all of its descendant `entry` elements bearing a
`key` attribute. -/
def recentEntries (root : Xml) : List Xml :=
  (root.descendants.filter
      (fun x => x.tag = "component" && x.attr "name" = some "RecentProjectsManager")).flatMap
    (fun comp => comp.descendants.filter
      (fun x => x.tag = "entry" && (x.attr "key").isSome))

/-- Model of `entry.find(".//option[@name='projectOpenTimestamp']")`: the first
descendant `option` element with the sentinel `name` attribute, if any. -/
def timestampOption (entry : Xml) : Option Xml :=
  entry.descendants.find?
    (fun x => x.tag = "option" && x.attr "name" = some "projectOpenTimestamp")

/-! ## The project record and the history parser -/

/-- The `Project` dataclass of `main.py`: display name, absolute path, and the last-opened
timestamp (`int` in Python, `Int` here). -/
structure Project where
  name : String
  path : String
  last_opened : Int
deriving DecidableEq, Repr

/-- The content found at a history-file path. `missing` raises
`FileNotFoundError` in `ElementTree.parse`, `unparsable` (zero-byte, non-XML
or otherwise not well-formed XML) raises `ElementTree.ParseError`; both are
caught by `_parse_recent_projects`. `parsed root` is a successful XML parse. -/
inductive FileRead where
  | missing
  | unparsable
  | parsed (root : Xml)

/-- Left-to-right non-overlapping replacement of a nonempty pattern, the
semantics of Python `str.replace`; the fuel argument (instantiated with the
input length, an upper bound on the number of steps) keeps the recursion
structural. -/
def replaceFuel (pat rep : List Char) : Nat → List Char → List Char
  | _, [] => []
  | 0, s => s
  | fuel + 1, c :: rest =>
      if pat.isPrefixOf (c :: rest) then
        rep ++ replaceFuel pat rep fuel ((c :: rest).drop pat.length)
      else c :: replaceFuel pat rep fuel rest

/-- Model of Python `s.replace(pat, rep)` for a nonempty pattern (the only
use here replaces the literal `$USER_HOME$`). -/
def pyReplace (s pat rep : String) : String :=
  if pat.data = [] then s
  else String.mk (replaceFuel pat.data rep.data s.data.length s.data)

/-- The resolved project path of an entry: its `key` attribute with the
`$USER_HOME$` placeholder replaced by the home directory (`main.py` line 62). -/
def resolvedPath (entry : Xml) (home : String) : String :=
  pyReplace ((entry.attr "key").getD "") "$USER_HOME$" home

/-- The timestamp string of an entry (`main.py` lines 64-66): the `value`
attribute of the first `projectOpenTimestamp` option, when that option exists
and carries a `value` attribute; `none` otherwise. -/
def timestampValue (entry : Xml) : Option String :=
  match timestampOption entry with
  | some opt => opt.attr "value"
  | none => none

/-- The loop body of `_parse_recent_projects` over the matched entries
(`main.py` lines 61-71): an entry contributes a `Project` when both the
resolved path and the timestamp string are non-empty; `int(last_opened)` can
raise `ValueError`, which the function does not catch. -/
def entriesLoop (home : String) : List Xml → Except PyErr (List Project)
  | [] => .ok []
  | entry :: rest =>
      match timestampValue entry with
      | some v =>
          if resolvedPath entry home ≠ "" ∧ v ≠ "" then
            match pyInt v with
            | .error e => .error e
            | .ok n =>
                match entriesLoop home rest with
                | .error e => .error e
                | .ok tail =>
                    .ok (⟨pyPathName (resolvedPath entry home), resolvedPath entry home, n⟩ :: tail)
          else entriesLoop home rest
      | none => entriesLoop home rest

/-- Embedding of `Editor._parse_recent_projects` (`main.py` lines 54-74): a
missing or XML-malformed file is caught (`FileNotFoundError`,
`ElementTree.ParseError`) and yields `[]`; a parsed file is scanned entry by
entry, and a non-integer timestamp string raises an uncaught `ValueError`. -/
def parseRecentProjects (file : FileRead) (home : String) : Except PyErr (List Project) :=
  match file with
  | .missing => .ok []
  | .unparsable => .ok []
  | .parsed root => entriesLoop home (recentEntries root)

/-! ## A model of `re` for the patterns this code passes to `re.search`

`on_event` (line 175) runs `re.search(query, project.name, re.IGNORECASE)` on
the raw user query. We model compilation and searching for the metacharacter
subset `( ) | * + ? .`, backslash escapes of non-alphanumeric characters
(which CPython treats as literals), and literal characters (including `]`,
`}`, `{`), with ASCII case folding for `re.IGNORECASE`. Constructs outside
this subset are conservatively mapped to a compile failure, so the model
never accepts a pattern CPython rejects: character classes `[...]`, anchors
`^` `$`, and every escape of an ASCII letter or digit — CPython either gives
those a meaning beyond this subset (`\d`, `\b`, octal and valid group
references) or itself raises `re.error` (unknown letter escapes such as
`\q`, out-of-range group references such as `\1` with no group). Within the
subset the failure cases mirror CPython's `re.error`: unbalanced parentheses,
a quantifier with nothing to repeat, a doubled quantifier, and a trailing
backslash. -/

/-- Regular expressions: empty set, empty string, a literal character
(compared case-insensitively), any-char-but-newline, alternation,
concatenation, Kleene star. -/
inductive RE where
  | emp
  | eps
  | chr (c : Char)
  | dot
  | alt (a b : RE)
  | cat (a b : RE)
  | star (a : RE)
deriving DecidableEq, Repr

/-- Concatenation of a reversed atom stack (innermost parse state): the stack
holds the atoms of the current branch last-first. -/
def catStack (seq : List (RE × Bool)) : RE :=
  seq.foldl (fun acc a => .cat a.1 acc) .eps

/-- Alternation of a nonempty list of branches (an empty list, which the
parser never produces, is the empty string). -/
def altList : List RE → RE
  | [] => .eps
  | [r] => r
  | r :: rs => .alt r (altList rs)

/-- The regex denoted by a finished group: completed branches plus the
current branch. -/
def groupRE (alts : List RE) (seq : List (RE × Bool)) : RE :=
  altList (alts ++ [catStack seq])

/-- One-pass pattern parser. `stack` saves the enclosing groups' states,
`alts` the completed alternation branches of the current group, `seq` the
reversed atoms of the current branch; the `Bool` on an atom records that it
already carries a quantifier (a second `*`/`+` is CPython's "multiple repeat"
error, while a following `?` is the lazy marker and changes nothing for
boolean matching). A backslash escape is kept as a literal only for
non-alphanumeric characters; letter and digit escapes fail, see the section
comment above. -/
def reParse : List Char → List (List RE × List (RE × Bool)) →
    List RE → List (RE × Bool) → Except PyErr RE
  | [], stack, alts, seq =>
      match stack with
      | [] => .ok (groupRE alts seq)
      | _ :: _ => .error .regexError
  | '(' :: rest, stack, alts, seq => reParse rest ((alts, seq) :: stack) [] []
  | ')' :: rest, stack, alts, seq =>
      match stack with
      | [] => .error .regexError
      | (alts₀, seq₀) :: stack₀ =>
          reParse rest stack₀ alts₀ ((groupRE alts seq, false) :: seq₀)
  | '|' :: rest, stack, alts, seq => reParse rest stack (alts ++ [catStack seq]) []
  | '*' :: rest, stack, alts, seq =>
      match seq with
      | [] => .error .regexError
      | (_, true) :: _ => .error .regexError
      | (a, false) :: seq₀ => reParse rest stack alts ((.star a, true) :: seq₀)
  | '+' :: rest, stack, alts, seq =>
      match seq with
      | [] => .error .regexError
      | (_, true) :: _ => .error .regexError
      | (a, false) :: seq₀ => reParse rest stack alts ((.cat a (.star a), true) :: seq₀)
  | '?' :: rest, stack, alts, seq =>
      match seq with
      | [] => .error .regexError
      | (a, true) :: seq₀ => reParse rest stack alts ((a, true) :: seq₀)
      | (a, false) :: seq₀ => reParse rest stack alts ((.alt a .eps, true) :: seq₀)
  | '.' :: rest, stack, alts, seq => reParse rest stack alts ((.dot, false) :: seq)
  | '\\' :: rest, stack, alts, seq =>
      match rest with
      | [] => .error .regexError
      | e :: rest₀ =>
          if e.isDigit || ('a' ≤ e && e ≤ 'z') || ('A' ≤ e && e ≤ 'Z') then
            .error .regexError
          else reParse rest₀ stack alts ((.chr e, false) :: seq)
  | '[' :: _, _, _, _ => .error .regexError
  | '^' :: _, _, _, _ => .error .regexError
  | '$' :: _, _, _, _ => .error .regexError
  | c :: rest, stack, alts, seq => reParse rest stack alts ((.chr c, false) :: seq)

/-- Compile a pattern string (the model of `re.compile` within the subset). -/
def regexCompile (pattern : String) : Except PyErr RE :=
  reParse pattern.toList [] [] []

/-- Does the regex accept the empty string? -/
def nullable : RE → Bool
  | .emp => false
  | .eps => true
  | .chr _ => false
  | .dot => false
  | .alt a b => nullable a || nullable b
  | .cat a b => nullable a && nullable b
  | .star _ => true

/-- Brzozowski derivative, with ASCII-case-insensitive character comparison
(`re.IGNORECASE`) and `.` not matching a newline (no `re.DOTALL`). -/
def derivRE (r : RE) (c : Char) : RE :=
  match r with
  | .emp => .emp
  | .eps => .emp
  | .chr a => if a.toLower = c.toLower then .eps else .emp
  | .dot => if c = '\n' then .emp else .eps
  | .alt a b => .alt (derivRE a c) (derivRE b c)
  | .cat a b => if nullable a then .alt (.cat (derivRE a c) b) (derivRE b c)
                else .cat (derivRE a c) b
  | .star a => .cat (derivRE a c) (.star a)

/-- Does the regex match some prefix of the character list? -/
def matchesHere (r : RE) : List Char → Bool
  | [] => nullable r
  | c :: rest => nullable r || matchesHere (derivRE r c) rest

/-- Model of the truthiness of `re.search(pattern, s, re.IGNORECASE)` for a
compiled pattern: a match starting at some position of `s`. -/
def reSearch (r : RE) : List Char → Bool
  | [] => nullable r
  | c :: rest => matchesHere r (c :: rest) || reSearch r rest

/-- The regex filter of `on_event` line 175: Python evaluates `re.search`
once per project, compiling the pattern at the first call, so an empty
project list never touches the pattern and an invalid pattern raises
`re.error` exactly when at least one project reaches the filter. -/
def filterRegex (pattern : String) (ps : List Project) : Except PyErr (List Project) :=
  match ps with
  | [] => .ok []
  | _ :: _ =>
      match regexCompile pattern with
      | .error e => .error e
      | .ok r => .ok (ps.filter (fun p => reSearch r p.name.toList))

/-! ## Editors, the filesystem model, and the query pipeline -/

/-- The `Editor` dataclass of `main.py` (lines 23-34): display name, icon path (a plain
string here, standing for `plugin_dir / "images" / ...`), the configuration
directory prefix (field `config_dir_prefix` in the source), and the resolved
binary (`None` when not installed). -/
structure Editor where
  name : String
  icon : String
  configDirPre : String
  binary : Option String
deriving DecidableEq, Repr

/-- The filesystem state the pipeline reads:
* `configDirs`: paths (relative to the platform configuration root, e.g.
  `"JetBrains/CLion2023.1"`) of the existing directories, the universe the
  `config_dir.glob(prefix + "*/")` call draws from;
* `histories`: the content of `<dir>/options/recentProjects.xml` for each
  configuration directory (absent entries mean the file does not exist);
* `existingPaths`: the paths for which `Path(p).exists()` holds;
* `regularFiles`: the paths for which `Path(p).is_file()` holds. -/
structure FS where
  configDirs : List String
  histories : List (String × FileRead)
  existingPaths : List String
  regularFiles : List String

/-- The history file found under a configuration directory. -/
def FS.historyAt (fs : FS) (dir : String) : FileRead :=
  ((fs.histories.find? (fun p => p.1 = dir)).map Prod.snd).getD .missing

/-- Embedding of `Editor._find_binary` (lines 36-41): the first candidate
name `b` for which `<binaries_path>/<b>`, after `expanduser`, is a regular
file, returned as that expanded path; `none` when no candidate matches. -/
def findBinary (binariesPath home : String) (regularFiles : List String) :
    List String → Option String
  | [] => none
  | b :: rest =>
      let cand := pyExpandUser (binariesPath ++ "/" ++ b) home
      if regularFiles.contains cand then some cand
      else findBinary binariesPath home regularFiles rest

/-- Embedding of `Editor.__init__` (lines 30-34): the binary is resolved by
`_find_binary` at construction time. -/
def mkEditor (name icon pre binariesPath : String) (binaries : List String)
    (home : String) (regularFiles : List String) : Editor :=
  ⟨name, icon, pre, findBinary binariesPath home regularFiles binaries⟩

/-- The fixed editor registry of `KeywordQueryEventListener.__init__`
(lines 89-165), in source order, with the source's candidate binary lists. -/
def registryEditors (binariesPath home : String) (regularFiles : List String) :
    List Editor :=
  [mkEditor "Android Studio" "images/androidstudio.svg" "Google/AndroidStudio" binariesPath
      ["studio", "androidstudio", "android-studio", "android-studio-canary", "jdk-android-studio",
       "android-studio-system-jdk"] home regularFiles,
   mkEditor "CLion" "images/clion.svg" "JetBrains/CLion" binariesPath
      ["clion", "clion-eap"] home regularFiles,
   mkEditor "DataGrip" "images/datagrip.svg" "JetBrains/DataGrip" binariesPath
      ["datagrip", "datagrip-eap"] home regularFiles,
   mkEditor "DataSpell" "images/dataspell.svg" "JetBrains/DataSpell" binariesPath
      ["dataspell", "dataspell-eap"] home regularFiles,
   mkEditor "GoLand" "images/goland.svg" "JetBrains/GoLand" binariesPath
      ["goland", "goland-eap"] home regularFiles,
   mkEditor "IntelliJ IDEA" "images/idea.svg" "JetBrains/IntelliJIdea" binariesPath
      ["idea", "idea.sh", "idea-ultimate", "idea-ce-eap", "idea-ue-eap", "intellij-idea-ce",
       "intellij-idea-ce-eap", "intellij-idea-ue-bundled-jre", "intellij-idea-ultimate-edition",
       "intellij-idea-community-edition-jre", "intellij-idea-community-edition-no-jre"]
      home regularFiles,
   mkEditor "PhpStorm" "images/phpstorm.svg" "JetBrains/PhpStorm" binariesPath
      ["phpstorm", "phpstorm-eap"] home regularFiles,
   mkEditor "PyCharm" "images/pycharm.svg" "JetBrains/PyCharm" binariesPath
      ["charm", "pycharm", "pycharm-eap"] home regularFiles,
   mkEditor "Rider" "images/rider.svg" "JetBrains/Rider" binariesPath
      ["rider", "rider-eap"] home regularFiles,
   mkEditor "RubyMine" "images/rubymine.svg" "JetBrains/RubyMine" binariesPath
      ["rubymine", "rubymine-eap", "jetbrains-rubymine", "jetbrains-rubymine-eap"]
      home regularFiles,
   mkEditor "WebStorm" "images/webstorm.svg" "JetBrains/WebStorm" binariesPath
      ["webstorm", "webstorm-eap"] home regularFiles,
   mkEditor "RustRover" "images/rustrover.svg" "JetBrains/RustRover" binariesPath
      ["rustrover", "rustrover-eap"] home regularFiles]

/-- Line 166: editors whose binary did not resolve are dropped before any
query is handled. -/
def initEditors (binariesPath home : String) (regularFiles : List String) :
    List Editor :=
  (registryEditors binariesPath home regularFiles).filter (fun e => e.binary.isSome)

/-- Model of `config_dir.glob(f"{prefix}*/")` over the directory universe
`dirs`: the directories whose relative path extends the family prefix without
introducing a new path separator (`*` does not cross `/` in `pathlib.glob`). -/
def globPre (dirs : List String) (pre : String) : List String :=
  dirs.filter (fun d => pre.data.isPrefixOf d.data && !((d.data.drop pre.data.length).contains '/'))

/-- Lines 48-51: no matching directory means no history; otherwise
`sorted(dirs)[-1]`, the lexicographically greatest matching directory. -/
def selectGeneration (dirs : List String) : Option String :=
  (dirs.insertionSort pyStrLe).getLast?

/-- Embedding of `Editor.list_projects` (lines 43-52): glob the configuration
root for the family prefix, give up (empty list) when nothing matches, else
parse `<latest>/options/recentProjects.xml` of the greatest match. -/
def listProjects (e : Editor) (fs : FS) (home : String) :
    Except PyErr (List Project) :=
  match selectGeneration (globPre fs.configDirs e.configDirPre) with
  | none => .ok []
  | some latest => parseRecentProjects (fs.historyAt latest) home

/-- The accumulation loop of `on_event` (lines 171-176): per editor, in
order, list its projects, keep those whose path exists, keep those whose name
matches the query, and append the (editor, project) pairs. Failures of
`list_projects` (uncaught `ValueError`) or of the regex filter propagate. -/
def collectPairs (fs : FS) (home query : String) :
    List Editor → Except PyErr (List (Editor × Project))
  | [] => .ok []
  | e :: rest =>
      match listProjects e fs home with
      | .error er => .error er
      | .ok ps =>
          match filterRegex query (ps.filter (fun p => fs.existingPaths.contains p.path)) with
          | .error er => .error er
          | .ok matched =>
              match collectPairs fs home query rest with
              | .error er => .error er
              | .ok tail => .ok (matched.map (fun p => (e, p)) ++ tail)

/-- The descending-timestamp preorder of `sort(key=..., reverse=True)`:
`a` may precede `b` when `b.last_opened ≤ a.last_opened`. -/
def pairLe (a b : Editor × Project) : Prop :=
  b.2.last_opened ≤ a.2.last_opened

instance : DecidableRel pairLe := fun _ b => Int.decLe b.2.last_opened _

/-- Line 178: `sort(key=..., reverse=True)` — a stable sort, descending on
`last_opened`. Python list sort is stable, and any two stable sorts by the
same total preorder agree, so the structural insertion sort is the model. -/
def sortPairs (pairs : List (Editor × Project)) : List (Editor × Project) :=
  pairs.insertionSort pairLe

/-- Embedding of `KeywordQueryEventListener.on_event` (lines 168-189):
collect, sort descending by timestamp, parse the `item_limit` preference
(`int(...)` — raises `ValueError` on a non-numeric setting, per query),
truncate. The result items the source builds from the surviving pairs are
represented by the pairs themselves. -/
def onEvent (editors : List Editor) (fs : FS) (home query itemLimit : String) :
    Except PyErr (List (Editor × Project)) :=
  match collectPairs fs home query editors with
  | .error e => .error e
  | .ok pairs =>
      match pyInt itemLimit with
      | .error e => .error e
      | .ok n => .ok (pySlice (sortPairs pairs) n)

instance : IsTrans (Editor × Project) pairLe :=
  ⟨fun _ _ _ h1 h2 => le_trans h2 h1⟩

instance : IsTotal (Editor × Project) pairLe :=
  ⟨fun a b => Int.le_total b.2.last_opened a.2.last_opened⟩

/-- Reflexivity of `lexLe` (a definition so the order instances below can use it). -/
def lexLe_refl : ∀ a : List Char, lexLe a a = true := by
  intro a
  induction a with
  | nil => rfl
  | cons c as ih => simp [lexLe, ih]

/-- Totality of `lexLe` (a definition so the order instances below can use it). -/
def lexLe_total : ∀ a b : List Char, lexLe a b = true ∨ lexLe b a = true := by
  intro a
  induction a with
  | nil => intro b; exact Or.inl rfl
  | cons c as ih =>
    intro b
    cases b with
    | nil => exact Or.inr rfl
    | cons d bs =>
      by_cases hcd : c = d
      · subst hcd
        simpa [lexLe] using ih bs
      · have hdc : d ≠ c := fun hh => hcd hh.symm
        simp only [lexLe, if_neg hcd, if_neg hdc, decide_eq_true_eq]
        rcases lt_or_ge c d with hlt | hge
        · exact Or.inl hlt
        · exact Or.inr (lt_of_le_of_ne hge (fun hh => hcd hh.symm))

/-- Transitivity of `lexLe` (a definition so the order instances below can use it). -/
def lexLe_trans : ∀ a b c : List Char,
    lexLe a b = true → lexLe b c = true → lexLe a c = true := by
  intro a
  induction a with
  | nil => intro b c _ _; rfl
  | cons x as ih =>
    intro b c h1 h2
    cases b with
    | nil => cases h1
    | cons y bs =>
      cases c with
      | nil => cases h2
      | cons z cs =>
        by_cases hxy : x = y
        · subst hxy
          by_cases hyz : x = z
          · subst hyz
            simp only [lexLe, if_pos rfl] at h1 h2 ⊢
            exact ih bs cs h1 h2
          · simp only [lexLe, if_pos rfl] at h1
            simp only [lexLe, if_neg hyz] at h2 ⊢
            exact h2
        · by_cases hyz : y = z
          · subst hyz
            simp only [lexLe, if_neg hxy] at h1 ⊢
            exact h1
          · by_cases hxz : x = z
            · subst hxz
              simp only [lexLe, if_neg hxy, decide_eq_true_eq] at h1
              simp only [lexLe, if_neg hyz, decide_eq_true_eq] at h2
              exact absurd (lt_trans h1 h2) (lt_irrefl x)
            · simp only [lexLe, if_neg hxy, decide_eq_true_eq] at h1
              simp only [lexLe, if_neg hyz, decide_eq_true_eq] at h2
              simp only [lexLe, if_neg hxz, decide_eq_true_eq]
              exact lt_trans h1 h2

instance : IsTotal String pyStrLe := ⟨fun a b => lexLe_total a.data b.data⟩

instance : IsTrans String pyStrLe := ⟨fun a b c => lexLe_trans a.data b.data c.data⟩

/-- The timestamp an emitted record carries: the value `int(...)` computes on
the timestamp string (only used under the hypothesis that `int(...)`
succeeds). -/
def timestampInt (v : String) : Int :=
  match pyInt v with
  | .ok n => n
  | .error _ => 0

/-- The record one entry contributes, if any: the per-entry content of the
loop of `_parse_recent_projects` (lines 61-71) stated as a function. -/
def projectOfEntry (home : String) (e : Xml) : Option Project :=
  match timestampValue e with
  | some v =>
      if resolvedPath e home ≠ "" ∧ v ≠ "" then
        some ⟨pyPathName (resolvedPath e home), resolvedPath e home, timestampInt v⟩
      else none
  | none => none

/-- An entry is well formed when, if it would be emitted, its timestamp
string is a valid base-10 integer (the format §4.4 of the spec prescribes). -/
def entryWF (home : String) (e : Xml) : Bool :=
  match timestampValue e with
  | some v =>
      if resolvedPath e home ≠ "" ∧ v ≠ "" then (pyInt v).isOk else true
  | none => true

/-! ## Concrete instances used to exercise the theorems -/

/-- A history-file `entry` element: a `key` attribute and, optionally, a
`projectOpenTimestamp` option child carrying a `value`. -/
def histEntry (key : String) (ts : Option String) : Xml :=
  .elem "entry" [("key", key)]
    (match ts with
     | some v => [.elem "option" [("name", "projectOpenTimestamp"), ("value", v)] []]
     | none => [])

/-- A minimal well-formed `recentProjects.xml` document around a list of
entries. -/
def histRoot (entries : List Xml) : Xml :=
  .elem "application" [] [.elem "component" [("name", "RecentProjectsManager")] entries]

/-- The history document of the C5 scenario: one emitting entry (with the
home placeholder), one entry without a timestamp option, one with an empty
key, one with an empty timestamp value. -/
def rootC5 : Xml :=
  histRoot [histEntry "$USER_HOME$/alpha" (some "100"), histEntry "/beta" none,
    histEntry "" (some "50"), histEntry "/gamma" (some "")]

/-- The editor of the C6 scenario. -/
def edC6 : Editor := ⟨"GoLand", "images/goland.svg", "JetBrains/GoLand", some "/usr/bin/goland"⟩

/-- The C6 filesystem: one generation whose history lists projects
timestamped 100, 50, 200 (in file order), all existing on disk. -/
def fsC6 : FS :=
  { configDirs := ["JetBrains/GoLand2024.2"]
  , histories := [("JetBrains/GoLand2024.2",
      .parsed (histRoot [histEntry "/a" (some "100"), histEntry "/b" (some "50"),
                         histEntry "/c" (some "200")]))]
  , existingPaths := ["/a", "/b", "/c"]
  , regularFiles := [] }

/-- The result of the C6 scenario, ordered 200, 100, 50. -/
def resC6 : List (Editor × Project) :=
  [(edC6, ⟨"c", "/c", 200⟩), (edC6, ⟨"a", "/a", 100⟩), (edC6, ⟨"b", "/b", 50⟩)]

/-- The editor of the C7 scenario. -/
def edC7 : Editor := ⟨"Rider", "images/rider.svg", "JetBrains/Rider", some "/usr/bin/rider"⟩

/-- The C7 filesystem: the history lists a live project and a stale one whose
path does not exist. -/
def fsC7 : FS :=
  { configDirs := ["JetBrains/Rider2024.1"]
  , histories := [("JetBrains/Rider2024.1",
      .parsed (histRoot [histEntry "/live" (some "300"), histEntry "/stale" (some "400")]))]
  , existingPaths := ["/live"]
  , regularFiles := [] }

/-- The result of the C7 scenario: only the live project. -/
def resC7 : List (Editor × Project) := [(edC7, ⟨"live", "/live", 300⟩)]

/-- First editor of the C8 scenarios. -/
def edA8 : Editor := ⟨"CLion", "images/clion.svg", "JetBrains/CLion", some "/usr/bin/clion"⟩

/-- Second editor of the C8 scenarios. -/
def edB8 : Editor := ⟨"GoLand", "images/goland.svg", "JetBrains/GoLand", some "/usr/bin/goland"⟩

/-- C8 tie filesystem: each editor contributes one project, both timestamped
100. -/
def fsT8 : FS :=
  { configDirs := ["JetBrains/CLion2024.1", "JetBrains/GoLand2024.1"]
  , histories := [("JetBrains/CLion2024.1",
      .parsed (histRoot [histEntry "/proj/one" (some "100")])),
      ("JetBrains/GoLand2024.1",
        .parsed (histRoot [histEntry "/proj/two" (some "100")]))]
  , existingPaths := ["/proj/one", "/proj/two"]
  , regularFiles := [] }

/-- C8 distinct-timestamp filesystem: the same layout with timestamps 100 and
200. -/
def fsD8 : FS :=
  { configDirs := ["JetBrains/CLion2024.1", "JetBrains/GoLand2024.1"]
  , histories := [("JetBrains/CLion2024.1",
      .parsed (histRoot [histEntry "/proj/one" (some "100")])),
      ("JetBrains/GoLand2024.1",
        .parsed (histRoot [histEntry "/proj/two" (some "200")]))]
  , existingPaths := ["/proj/one", "/proj/two"]
  , regularFiles := [] }

/-- The editor of the C10 scenario. -/
def edC10 : Editor :=
  ⟨"WebStorm", "images/webstorm.svg", "JetBrains/WebStorm", some "/usr/bin/webstorm"⟩

/-- The C10 filesystem: two live projects with the same timestamp, `/x`
before `/y` in the history file. -/
def fsC10 : FS :=
  { configDirs := ["JetBrains/WebStorm2024.3"]
  , histories := [("JetBrains/WebStorm2024.3",
      .parsed (histRoot [histEntry "/x" (some "100"), histEntry "/y" (some "100")]))]
  , existingPaths := ["/x", "/y"]
  , regularFiles := [] }

/-- The C10 merge and result: the tie appears in history order. -/
def resC10 : List (Editor × Project) :=
  [(edC10, ⟨"x", "/x", 100⟩), (edC10, ⟨"y", "/y", 100⟩)]

/-! ## Helper lemmas -/

/-- On success the regex filter returns a sublist of its input. -/
theorem filterRegex_sublist {q : String} {ps ps' : List Project}
    (h : filterRegex q ps = .ok ps') : List.Sublist ps' ps := by
  unfold filterRegex at h
  split at h
  · simp_all
  · split at h
    · simp at h
    · simp only [Except.ok.injEq] at h
      exact h ▸ List.filter_sublist _

/-- A successful regex filter of a nonempty candidate list means the pattern
compiled, and the survivors are the matching candidates. -/
theorem filterRegex_ok_of_compile {q : String} {r : RE} {ps : List Project}
    (h : regexCompile q = .ok r) :
    filterRegex q ps = .ok (ps.filter (fun p => reSearch r p.name.toList)) := by
  unfold filterRegex
  cases ps with
  | nil => simp
  | cons p rest => rw [h]

/-- Splitting a successful editor loop of `on_event` at an append. -/
theorem collectPairs_append_ok {fs : FS} {home query : String} :
    ∀ {xs ys : List Editor} {pxs pys : List (Editor × Project)},
      collectPairs fs home query xs = .ok pxs →
      collectPairs fs home query ys = .ok pys →
      collectPairs fs home query (xs ++ ys) = .ok (pxs ++ pys) := by
  intro xs
  induction xs with
  | nil =>
    intro ys pxs pys hx hy
    simp only [collectPairs, Except.ok.injEq] at hx
    simpa [hx.symm] using hy
  | cons e rest ih =>
    intro ys pxs pys hx hy
    rw [List.cons_append]
    rw [collectPairs] at hx ⊢
    split at hx
    · cases hx
    · rename_i ps h1
      split at hx
      · cases hx
      · rename_i matched h2
        split at hx
        · cases hx
        · rename_i tail h3
          cases hx
          simp only [ih h3 hy]
          simp [List.append_assoc]

/-- The sorted pair list is a permutation of the merged pair list. -/
theorem sortPairs_perm (l : List (Editor × Project)) : List.Perm (sortPairs l) l :=
  List.perm_insertionSort pairLe l

/-- The sorted pair list is descending in `last_opened`. -/
theorem sortPairs_pairwise (l : List (Editor × Project)) :
    (sortPairs l).Pairwise (fun a b => b.2.last_opened ≤ a.2.last_opened) :=
  List.sorted_insertionSort pairLe l

/-- Slicing `l[:n]` always yields a prefix (`take`) of `l`. -/
theorem pySlice_eq_take (l : List α) (n : Int) : ∃ k, pySlice l n = l.take k := by
  unfold pySlice
  split
  · exact ⟨n.toNat, rfl⟩
  · exact ⟨(l.length + n).toNat, rfl⟩

/-- For a nonnegative bound, `l[:n]` has at most `n` elements. -/
theorem pySlice_length_le {l : List α} {n : Int} (h : 0 ≤ n) :
    (pySlice l n).length ≤ n.toNat := by
  unfold pySlice
  rw [if_pos h]
  simp [List.length_take]

/-- Filtering a prefix gives a prefix of the filtered list. -/
theorem filter_take_ex (p : α → Bool) :
    ∀ (l : List α) (k : Nat), ∃ m, (l.take k).filter p = (l.filter p).take m := by
  intro l
  induction l with
  | nil => intro k; exact ⟨0, by simp⟩
  | cons a rest ih =>
    intro k
    cases k with
    | zero => exact ⟨0, by simp⟩
    | succ k' =>
      obtain ⟨m, hm⟩ := ih k'
      by_cases hp : p a
      · exact ⟨m + 1, by simp [hp, hm]⟩
      · exact ⟨m, by simp [hp, hm]⟩

/-- Stability of the sort on one timestamp class: the pairs carrying a given
timestamp appear in `sortPairs l` exactly in the order they hold in `l`. -/
theorem sortPairs_filter_ts (l : List (Editor × Project)) (t : Int) :
    (sortPairs l).filter (fun pr => pr.2.last_opened = t) =
      l.filter (fun pr => pr.2.last_opened = t) := by
  set p : Editor × Project → Bool := fun pr => pr.2.last_opened = t with hp
  have hsub : List.Sublist (l.filter p) l := List.filter_sublist l
  have hclass : ∀ a ∈ l.filter p, a.2.last_opened = t := by
    intro a ha
    have := List.of_mem_filter ha
    simpa [hp] using this
  have hpw : (l.filter p).Pairwise pairLe := by
    apply List.pairwise_of_forall_mem_list
    intro a ha b hb
    unfold pairLe
    rw [hclass a ha, hclass b hb]
  have hsl : List.Sublist (l.filter p) (sortPairs l) :=
    List.sublist_insertionSort hpw hsub
  have hslf : List.Sublist (l.filter p) ((sortPairs l).filter p) := by
    have := List.Sublist.filter p hsl
    rwa [List.filter_filter, show ((fun a => p a && p a) = p) from by
      funext a; cases p a <;> simp] at this
  have hlen : ((sortPairs l).filter p).length = (l.filter p).length :=
    ((sortPairs_perm l).filter p).length_eq
  exact ((List.Sublist.eq_of_length hslf hlen.symm)).symm

/-- Two merged lists that are permutations with pairwise-distinct timestamps
sort identically: scan order cannot influence the ranked sequence when no two
projects share a `last_opened` value. -/
theorem sortPairs_eq_of_perm {l1 l2 : List (Editor × Project)}
    (hperm : List.Perm l1 l2)
    (hnd : (l1.map (fun pr => pr.2.last_opened)).Nodup) :
    sortPairs l1 = sortPairs l2 := by
  have hr : List.Perm (sortPairs l1) (sortPairs l2) :=
    ((sortPairs_perm l1).trans hperm).trans (sortPairs_perm l2).symm
  set r : Editor × Project → Editor × Project → Prop :=
    fun a b => b.2.last_opened < a.2.last_opened with hrdef
  haveI : IsAntisymm (Editor × Project) r := ⟨by
    intro a b h1 h2
    simp only [hrdef] at h1 h2
    omega⟩
  have strict : ∀ (m : List (Editor × Project)),
      (m.map (fun pr => pr.2.last_opened)).Nodup →
      m.Pairwise (fun a b => b.2.last_opened ≤ a.2.last_opened) → m.Pairwise r := by
    intro m hm hpw
    have hne : m.Pairwise (fun a b => a.2.last_opened ≠ b.2.last_opened) :=
      (List.pairwise_map.mp hm)
    exact (hpw.and hne).imp (by
      intro a b hab
      simp only [hrdef]
      omega)
  have hnd1 : ((sortPairs l1).map (fun pr => pr.2.last_opened)).Nodup := by
    have : List.Perm ((sortPairs l1).map (fun pr => pr.2.last_opened))
        (l1.map (fun pr => pr.2.last_opened)) := (sortPairs_perm l1).map _
    exact (this.nodup_iff).mpr hnd
  have hnd2 : ((sortPairs l2).map (fun pr => pr.2.last_opened)).Nodup := by
    have : List.Perm ((sortPairs l2).map (fun pr => pr.2.last_opened))
        ((sortPairs l1).map (fun pr => pr.2.last_opened)) := (hr.symm).map _
    exact (this.nodup_iff).mpr hnd1
  exact List.eq_of_perm_of_sorted hr
    (strict _ hnd1 (sortPairs_pairwise l1)) (strict _ hnd2 (sortPairs_pairwise l2))

/-- The last element of a nonempty `r`-pairwise list is an `r`-upper bound
of it (for a reflexive `r`). -/
theorem pairwise_getLast?_max {α : Type} {r : α → α → Prop} (hrefl : ∀ x, r x x) :
    ∀ {l : List α} {m : α}, l.Pairwise r → l.getLast? = some m →
      m ∈ l ∧ ∀ d ∈ l, r d m := by
  intro l
  induction l with
  | nil => intro m _ h; cases h
  | cons a rest ih =>
    intro m hpw h
    cases rest with
    | nil =>
      simp only [List.getLast?_singleton, Option.some.injEq] at h
      subst h
      refine ⟨List.mem_singleton_self a, ?_⟩
      intro d hd
      rw [List.mem_singleton.mp hd]
      exact hrefl a
    | cons b rest2 =>
      rw [List.getLast?_cons_cons] at h
      obtain ⟨hmem, hmax⟩ := ih hpw.tail h
      refine ⟨List.mem_cons_of_mem a hmem, ?_⟩
      intro d hd
      rcases List.mem_cons.mp hd with rfl | hd2
      · exact List.rel_of_pairwise_cons hpw hmem
      · exact hmax d hd2

/-- Python `sorted(dirs)[-1]` on a nonempty list is a member and a lexicographic
upper bound of it. -/
theorem selectGeneration_spec {dirs : List String} (h : dirs ≠ []) :
    ∃ m, selectGeneration dirs = some m ∧ m ∈ dirs ∧ ∀ d ∈ dirs, pyStrLe d m := by
  have hperm : List.Perm (dirs.insertionSort pyStrLe) dirs :=
    List.perm_insertionSort pyStrLe dirs
  have hne : dirs.insertionSort pyStrLe ≠ [] := by
    intro h0
    exact h (List.eq_nil_of_length_eq_zero (by
      rw [← hperm.length_eq, h0, List.length_nil]))
  obtain ⟨m, hm⟩ := Option.isSome_iff_exists.mp (List.getLast?_isSome.mpr hne)
  have hpw : (dirs.insertionSort pyStrLe).Pairwise pyStrLe :=
    List.sorted_insertionSort pyStrLe dirs
  obtain ⟨hmem, hmax⟩ :=
    pairwise_getLast?_max (r := pyStrLe) (fun x => lexLe_refl x.data) hpw hm
  refine ⟨m, hm, hperm.mem_iff.mp hmem, ?_⟩
  intro d hd
  exact hmax d (hperm.mem_iff.mpr hd)

/-- Every pair a successful editor loop returns passed the live-existence
filter of `on_event` line 174. -/
theorem collectPairs_mem_exists {fs : FS} {home query : String} :
    ∀ {es : List Editor} {pairs : List (Editor × Project)},
      collectPairs fs home query es = .ok pairs →
      ∀ pr ∈ pairs, pr.2.path ∈ fs.existingPaths := by
  intro es
  induction es with
  | nil =>
    intro pairs h pr hpr
    simp only [collectPairs, Except.ok.injEq] at h
    rw [← h] at hpr
    cases hpr
  | cons e rest ih =>
    intro pairs h pr hpr
    rw [collectPairs] at h
    split at h
    · cases h
    · rename_i ps h1
      split at h
      · cases h
      · rename_i matched h2
        split at h
        · cases h
        · rename_i tail h3
          cases h
          rcases List.mem_append.mp hpr with hml | hmt
          · obtain ⟨p, hp, rfl⟩ := List.mem_map.mp hml
            have hkept : p ∈ ps.filter (fun p => fs.existingPaths.contains p.path) :=
              (filterRegex_sublist h2).mem hp
            have := List.of_mem_filter hkept
            simpa using this
          · exact ih h3 pr hmt

/-- Decomposing a successful `on_event` run. -/
theorem onEvent_ok_elim {editors : List Editor} {fs : FS}
    {home query itemLimit : String} {res : List (Editor × Project)}
    (h : onEvent editors fs home query itemLimit = .ok res) :
    ∃ pairs n, collectPairs fs home query editors = .ok pairs ∧
      pyInt itemLimit = .ok n ∧ res = pySlice (sortPairs pairs) n := by
  unfold onEvent at h
  split at h
  · cases h
  · rename_i pairs hc
    split at h
    · cases h
    · rename_i n hn
      cases h
      exact ⟨pairs, n, hc, hn, rfl⟩

/-- Assembling a successful `on_event` run. -/
theorem onEvent_ok_intro {editors : List Editor} {fs : FS}
    {home query itemLimit : String} {pairs : List (Editor × Project)} {n : Int}
    (hc : collectPairs fs home query editors = .ok pairs)
    (hn : pyInt itemLimit = .ok n) :
    onEvent editors fs home query itemLimit = .ok (pySlice (sortPairs pairs) n) := by
  unfold onEvent
  rw [hc, hn]

/-- Over well-formed entries the parser loop succeeds and returns exactly the
records of the emitting entries, in entry order. -/
theorem entriesLoop_eq_filterMap {home : String} :
    ∀ {es : List Xml}, (∀ e ∈ es, entryWF home e = true) →
      entriesLoop home es = .ok (es.filterMap (projectOfEntry home)) := by
  intro es
  induction es with
  | nil => intro _; simp [entriesLoop]
  | cons entry rest ih =>
    intro hwf
    have hwfe : entryWF home entry = true := hwf entry (List.mem_cons_self entry rest)
    have hwfr : ∀ e ∈ rest, entryWF home e = true := by
      intro e he
      exact hwf e (List.mem_cons_of_mem entry he)
    rw [entriesLoop, List.filterMap_cons]
    cases htv : timestampValue entry with
    | none =>
      simp only [htv]
      rw [ih hwfr]
      simp [projectOfEntry, htv]
    | some v =>
      simp only [htv]
      by_cases hc : resolvedPath entry home ≠ "" ∧ v ≠ ""
      · have hok : (pyInt v).isOk = true := by
          unfold entryWF at hwfe
          simp only [htv] at hwfe
          rwa [if_pos hc] at hwfe
        rw [if_pos hc]
        cases hp : pyInt v with
        | error e' => rw [hp] at hok; exact Bool.noConfusion hok
        | ok n =>
          rw [ih hwfr]
          simp [projectOfEntry, htv, hc, timestampInt, hp]
      · rw [if_neg hc]
        rw [ih hwfr]
        simp [projectOfEntry, htv, hc]

/-! ## The claims -/

/-- Claim C1 (corrected): a missing history file (`FileNotFoundError`) and a
file that fails XML parsing — zero-byte, non-XML, partial write
(`ElementTree.ParseError`) — both yield the empty record list; the blanket
"malformed in any way" part of the claim fails, see the counterexample. -/
theorem c1_missing_or_malformed_yields_empty (home : String) :
    parseRecentProjects .missing home = .ok [] ∧
    parseRecentProjects .unparsable home = .ok [] :=
  ⟨rfl, rfl⟩

/-- Claim C1 counterexample: content that parses as XML but whose timestamp
value is not an integer makes `_parse_recent_projects` raise an uncaught
`ValueError` (from `int(last_opened)`, line 70) instead of returning a list. -/
theorem c1_counterexample :
    parseRecentProjects (.parsed (histRoot [histEntry "/corrupt" (some "oops")]))
      "/home/user" = .error .valueError := by
  decide

/-- Claim C2 (corrected): the result limit is parsed by `int(...)` inside
`on_event` (line 179), so while it is non-numeric every handled query fails
(`ValueError`) — no query succeeds; and once it parses as an integer the
truncation step itself never fails. -/
theorem c2_limit_parsed_per_query (editors : List Editor) (fs : FS)
    (home query itemLimit : String) :
    ((pyInt itemLimit).isOk = false →
      ∀ res, onEvent editors fs home query itemLimit ≠ .ok res) ∧
    (∀ (n : Int) (pairs : List (Editor × Project)),
      pyInt itemLimit = .ok n → collectPairs fs home query editors = .ok pairs →
      onEvent editors fs home query itemLimit = .ok (pySlice (sortPairs pairs) n)) := by
  constructor
  · intro hbad res hok
    obtain ⟨pairs, n, hc, hn, -⟩ := onEvent_ok_elim hok
    rw [hn] at hbad
    cases hbad
  · intro n pairs hn hc
    exact onEvent_ok_intro hc hn

/-- Claim C2 witness: with the non-numeric limit `"abc"` no query can
succeed. -/
theorem c2_witness :
    (pyInt "abc").isOk = false ∧
    ∀ res, onEvent [] ⟨[], [], [], []⟩ "/home/u" "" "abc" ≠ .ok res :=
  ⟨by decide, (c2_limit_parsed_per_query [] ⟨[], [], [], []⟩ "/home/u" "" "abc").1 (by decide)⟩

/-- Claim C2 counterexample: a non-numeric `item_limit` does not fail before
queries are handled — it makes the query handler itself raise `ValueError`,
even with no editor installed. -/
theorem c2_counterexample :
    onEvent [] ⟨[], [], [], []⟩ "/home/u" "" "abc" = .error .valueError := by
  decide

/-- Claim C4 (confirmed): on a nonempty candidate set the selector returns
exactly the lexicographically greatest directory name (so `X-2.1` beats
`X-10.0`), and an empty candidate set makes `list_projects` return an empty
project list rather than fail. -/
theorem c4_lexicographic_generation_selection (dirs : List String) (h : dirs ≠ []) :
    (∃ m, selectGeneration dirs = some m ∧ m ∈ dirs ∧ ∀ d ∈ dirs, pyStrLe d m) ∧
    selectGeneration ["X-1.0", "X-2.1", "X-10.0"] = some "X-2.1" ∧
    (∀ (e : Editor) (fs : FS) (home : String),
      globPre fs.configDirs e.configDirPre = [] → listProjects e fs home = .ok []) := by
  refine ⟨selectGeneration_spec h, by decide, ?_⟩
  intro e fs home hg
  unfold listProjects
  rw [hg]
  rfl

/-- Claim C4 witness: on `X-1.0`, `X-2.1`, `X-10.0` the selector picks
`X-2.1`, the lexicographic maximum. -/
theorem c4_witness :
    (["X-1.0", "X-2.1", "X-10.0"] : List String) ≠ [] ∧
    (∃ m, selectGeneration ["X-1.0", "X-2.1", "X-10.0"] = some m ∧
      m ∈ ["X-1.0", "X-2.1", "X-10.0"] ∧
      ∀ d ∈ ["X-1.0", "X-2.1", "X-10.0"], pyStrLe d m) :=
  ⟨by decide, (c4_lexicographic_generation_selection ["X-1.0", "X-2.1", "X-10.0"] (by decide)).1⟩

/-- Claim C5 (confirmed): over a well-formed history file the parser emits,
in entry order, exactly one record per entry whose resolved path is non-empty
and whose timestamp option is present with a non-empty value; entries missing
either are dropped, and each record's display name is the last path segment
of its resolved path. -/
theorem c5_parser_emission_rule (root : Xml) (home : String)
    (hwf : ∀ e ∈ recentEntries root, entryWF home e = true) :
    parseRecentProjects (.parsed root) home =
        .ok ((recentEntries root).filterMap (projectOfEntry home)) ∧
    (∀ e ∈ recentEntries root, (projectOfEntry home e).isSome = true ↔
        (resolvedPath e home ≠ "" ∧ ∃ v, timestampValue e = some v ∧ v ≠ "")) ∧
    (∀ e ∈ recentEntries root, ∀ p, projectOfEntry home e = some p →
        p.path = resolvedPath e home ∧ p.name = pyPathName (resolvedPath e home)) := by
  refine ⟨entriesLoop_eq_filterMap hwf, ?_, ?_⟩
  · intro e _
    unfold projectOfEntry
    cases htv : timestampValue e with
    | none => simp
    | some v =>
      by_cases hc : resolvedPath e home ≠ "" ∧ v ≠ ""
      · simp only [if_pos hc, Option.isSome_some, true_iff]
        exact ⟨hc.1, v, rfl, hc.2⟩
      · simp only [if_neg hc, Option.isSome_none, Bool.false_eq_true, false_iff]
        intro hcontra
        obtain ⟨hpath, w, hw, hwne⟩ := hcontra
        cases hw
        exact hc ⟨hpath, hwne⟩
  · intro e _ p hp
    unfold projectOfEntry at hp
    split at hp
    · split at hp
      · cases hp
        exact ⟨rfl, rfl⟩
      · cases hp
    · cases hp

/-- Claim C5 witness: of four entries exactly the first is emitted, with the
placeholder substituted and the last path segment as display name. -/
theorem c5_witness :
    (∀ e ∈ recentEntries rootC5, entryWF "/home/u" e = true) ∧
    parseRecentProjects (.parsed rootC5) "/home/u" =
      .ok [⟨"alpha", "/home/u/alpha", 100⟩] := by
  refine ⟨by decide, ?_⟩
  rw [(c5_parser_emission_rule rootC5 "/home/u" (by decide)).1]
  decide

/-- Claim C6 (confirmed): every successful query result is descending in
`last_opened`, a prefix of the full descending-sorted merge (so truncation
keeps the highest-ranked entries), and no longer than a nonnegative parsed
limit. -/
theorem c6_sorted_bounded_truncation (editors : List Editor) (fs : FS)
    (home query itemLimit : String) (res : List (Editor × Project))
    (h : onEvent editors fs home query itemLimit = .ok res) :
    res.Pairwise (fun a b => b.2.last_opened ≤ a.2.last_opened) ∧
    (∀ n, pyInt itemLimit = .ok n → 0 ≤ n → res.length ≤ n.toNat) ∧
    (∀ pairs, collectPairs fs home query editors = .ok pairs →
      ∃ k, res = (sortPairs pairs).take k) := by
  obtain ⟨pairs, n, hc, hn, hres⟩ := onEvent_ok_elim h
  refine ⟨?_, ?_, ?_⟩
  · obtain ⟨k, hk⟩ := pySlice_eq_take (sortPairs pairs) n
    rw [hres, hk]
    exact List.Pairwise.sublist (List.take_sublist k (sortPairs pairs))
      (sortPairs_pairwise pairs)
  · intro n2 hn2 hpos
    rw [hn] at hn2
    cases hn2
    rw [hres]
    exact pySlice_length_le hpos
  · intro pairs2 hc2
    rw [hc] at hc2
    cases hc2
    rw [hres]
    exact pySlice_eq_take (sortPairs pairs) n

/-- Claim C6 witness: projects timestamped [100, 50, 200] come back ordered
[200, 100, 50] for the empty query, and the sequence is descending. -/
theorem c6_witness :
    onEvent [edC6] fsC6 "/home/u" "" "10" = .ok resC6 ∧
    resC6.Pairwise (fun a b => b.2.last_opened ≤ a.2.last_opened) :=
  ⟨by decide,
   (c6_sorted_bounded_truncation [edC6] fsC6 "/home/u" "" "10" resC6 (by decide)).1⟩

/-- Claim C7 (confirmed): every pair a successful query returns points at a
path that exists on the (modelled) filesystem at query time — a well-formed
history entry whose path does not exist never reaches the result list. -/
theorem c7_results_exist_on_disk (editors : List Editor) (fs : FS)
    (home query itemLimit : String) (res : List (Editor × Project))
    (h : onEvent editors fs home query itemLimit = .ok res) :
    ∀ pr ∈ res, pr.2.path ∈ fs.existingPaths := by
  obtain ⟨pairs, n, hc, hn, hres⟩ := onEvent_ok_elim h
  intro pr hpr
  rw [hres] at hpr
  obtain ⟨k, hk⟩ := pySlice_eq_take (sortPairs pairs) n
  rw [hk] at hpr
  have hmem : pr ∈ pairs :=
    (sortPairs_perm pairs).subset (List.take_subset k (sortPairs pairs) hpr)
  exact collectPairs_mem_exists hc pr hmem

/-- Claim C7 witness: the stale entry, although well formed and newer, is
excluded; everything returned exists. -/
theorem c7_witness :
    onEvent [edC7] fsC7 "/home/u" "" "10" = .ok resC7 ∧
    ∀ pr ∈ resC7, pr.2.path ∈ fsC7.existingPaths :=
  ⟨by decide, c7_results_exist_on_disk [edC7] fsC7 "/home/u" "" "10" resC7 (by decide)⟩

/-- A run whose limit fails to parse raises that `ValueError`. -/
theorem onEvent_limitError_intro {editors : List Editor} {fs : FS}
    {home query itemLimit : String} {pairs : List (Editor × Project)} {e : PyErr}
    (hc : collectPairs fs home query editors = .ok pairs)
    (hn : pyInt itemLimit = .error e) :
    onEvent editors fs home query itemLimit = .error e := by
  unfold onEvent
  rw [hc, hn]

/-- Claim C8 (corrected): scan order cannot influence the ranked sequence
when no two contributed projects share a timestamp; with a shared timestamp
it does (see the counterexample), because the stable sort keeps merge order
inside a timestamp class. -/
theorem c8_scan_order_irrelevant_when_distinct (a b : Editor) (fs : FS)
    (home query itemLimit : String) (pa pb : List (Editor × Project))
    (ha : collectPairs fs home query [a] = .ok pa)
    (hb : collectPairs fs home query [b] = .ok pb)
    (hnd : ((pa ++ pb).map (fun pr => pr.2.last_opened)).Nodup) :
    onEvent [a, b] fs home query itemLimit =
      onEvent [b, a] fs home query itemLimit := by
  have hab : collectPairs fs home query [a, b] = .ok (pa ++ pb) :=
    collectPairs_append_ok ha hb
  have hba : collectPairs fs home query [b, a] = .ok (pb ++ pa) :=
    collectPairs_append_ok hb ha
  have hsort : sortPairs (pa ++ pb) = sortPairs (pb ++ pa) :=
    sortPairs_eq_of_perm List.perm_append_comm hnd
  cases hn : pyInt itemLimit with
  | ok n => rw [onEvent_ok_intro hab hn, onEvent_ok_intro hba hn, hsort]
  | error e => rw [onEvent_limitError_intro hab hn, onEvent_limitError_intro hba hn]

/-- Claim C8 counterexample: with equal timestamps the two scan orders give
two different ranked sequences — the claim's unconditional permutation
invariance is false. -/
theorem c8_counterexample :
    onEvent [edA8, edB8] fsT8 "/home/u" "" "10" ≠
      onEvent [edB8, edA8] fsT8 "/home/u" "" "10" := by
  decide

/-- Claim C8 witness: with distinct timestamps (100 and 200) both scan orders
agree. -/
theorem c8_witness :
    collectPairs fsD8 "/home/u" "" [edA8] = .ok [(edA8, ⟨"one", "/proj/one", 100⟩)] ∧
    collectPairs fsD8 "/home/u" "" [edB8] = .ok [(edB8, ⟨"two", "/proj/two", 200⟩)] ∧
    onEvent [edA8, edB8] fsD8 "/home/u" "" "10" =
      onEvent [edB8, edA8] fsD8 "/home/u" "" "10" :=
  ⟨by decide, by decide,
   c8_scan_order_irrelevant_when_distinct edA8 edB8 fsD8 "/home/u" "" "10"
     [(edA8, ⟨"one", "/proj/one", 100⟩)] [(edB8, ⟨"two", "/proj/two", 200⟩)]
     (by decide) (by decide) (by decide)⟩

/-- Claim C9 (confirmed): the binary resolver returns the expanded path of
the first candidate name, in list order, whose `<configured_dir>/<name>`
(after home expansion) is a regular file — even when later candidates also
exist; it returns `none` exactly when no candidate matches, and editors
resolving to `none` are dropped by the registry initialisation. -/
theorem c9_first_match_binary (binariesPath home : String)
    (files binaries : List String) :
    findBinary binariesPath home files binaries =
      (binaries.find?
          (fun b => files.contains (pyExpandUser (binariesPath ++ "/" ++ b) home))).map
        (fun b => pyExpandUser (binariesPath ++ "/" ++ b) home) ∧
    (findBinary binariesPath home files binaries = none ↔
      ∀ b ∈ binaries, ¬ pyExpandUser (binariesPath ++ "/" ++ b) home ∈ files) ∧
    (∀ e ∈ initEditors binariesPath home files, e.binary ≠ none) := by
  have hchar : findBinary binariesPath home files binaries =
      (binaries.find?
          (fun b => files.contains (pyExpandUser (binariesPath ++ "/" ++ b) home))).map
        (fun b => pyExpandUser (binariesPath ++ "/" ++ b) home) := by
    induction binaries with
    | nil => rfl
    | cons b rest ih =>
      rw [findBinary]
      by_cases hmem : files.contains (pyExpandUser (binariesPath ++ "/" ++ b) home) = true
      · rw [if_pos hmem]
        simp only [List.find?_cons, hmem]
        rfl
      · rw [if_neg hmem, ih]
        have hfalse : files.contains (pyExpandUser (binariesPath ++ "/" ++ b) home) = false := by
          simpa using hmem
        simp only [List.find?_cons, hfalse]
  refine ⟨hchar, ?_, ?_⟩
  · rw [hchar]
    simp [List.find?_eq_none]
  · intro e he
    have hs := List.of_mem_filter he
    intro hnone
    rw [hnone] at hs
    cases hs

/-- Claim C9 witness: with both `clion` and `clion-eap` present under
`~/bin`, the earlier-listed `clion` wins. -/
theorem c9_witness :
    findBinary "~/bin" "/home/u" ["/home/u/bin/clion", "/home/u/bin/clion-eap"]
      ["clion", "clion-eap"] = some "/home/u/bin/clion" := by
  rw [(c9_first_match_binary "~/bin" "/home/u"
    ["/home/u/bin/clion", "/home/u/bin/clion-eap"] ["clion", "clion-eap"]).1]
  decide

/-- Claim C10 (confirmed): among results with one given timestamp, the
output order is exactly the order of the merged pre-sort list (editors in the
order the listener iterates them, entries in history-file order), truncation
aside — the sort of line 178 is stable, so repeated queries over the same
state reproduce the same sequence. -/
theorem c10_stable_tie_order (editors : List Editor) (fs : FS)
    (home query itemLimit : String) (res pairs : List (Editor × Project))
    (h : onEvent editors fs home query itemLimit = .ok res)
    (hc : collectPairs fs home query editors = .ok pairs) :
    ∀ t : Int, ∃ k,
      res.filter (fun pr => decide (pr.2.last_opened = t)) =
        (pairs.filter (fun pr => decide (pr.2.last_opened = t))).take k := by
  obtain ⟨pairs2, n, hc2, hn, hres⟩ := onEvent_ok_elim h
  rw [hc] at hc2
  cases hc2
  intro t
  obtain ⟨k0, hk0⟩ := pySlice_eq_take (sortPairs pairs) n
  obtain ⟨m, hm⟩ :=
    filter_take_ex (fun pr => decide (pr.2.last_opened = t)) (sortPairs pairs) k0
  refine ⟨m, ?_⟩
  rw [hres, hk0, hm, sortPairs_filter_ts]

/-- Claim C10 witness: two equal-timestamp projects come back in history
order, and each timestamp class of the result prefixes the merged order. -/
theorem c10_witness :
    onEvent [edC10] fsC10 "/home/u" "" "10" = .ok resC10 ∧
    collectPairs fsC10 "/home/u" "" [edC10] = .ok resC10 ∧
    ∀ t : Int, ∃ k,
      resC10.filter (fun pr => decide (pr.2.last_opened = t)) =
        (resC10.filter (fun pr => decide (pr.2.last_opened = t))).take k :=
  ⟨by decide, by decide,
   c10_stable_tie_order [edC10] fsC10 "/home/u" "" "10" resC10 resC10
     (by decide) (by decide)⟩
